import Mathlib

/-!
Verification of the authenticated HTTP request core of the asgardeo-cli
repository (Go), against its natural-language specification.

The two source files are embedded shallowly:

* `src/internal/api/http_client.go` — the `httpClient` type and its methods
  `NewHTTPClientAPI`, `Request`, `NewRequest`, `Do` and `URI`.  Go strings are
  modelled as lists of byte values (`List Nat`); Go's per-byte percent-escaping
  from `net/url` (`url.PathEscape` and `URL.String`/`EscapedPath`) is embedded
  byte for byte.  Fallible operations return `Except`/`Option`; the context's
  cancellation state at the moment the transport returns is an explicit
  `Option CtxErr` value (`none` = the context's Done channel has not fired).
* `src/internal/cmd/root.go` — `commandRequiresAuthentication` and the
  `PersistentPreRunE` gate installed by `buildRootCmd`, together with the
  dispatch behaviour of the command framework (a pre-run error prevents the
  command body from running).
-/

namespace Asgardeo

/-- Byte values of an ASCII string literal (for ASCII text UTF-8 bytes coincide
with the code points). -/
def strBytes (s : String) : List Nat := s.data.map (fun c => c.toNat)

/-! ### Percent escaping (`net/url`)

Go's `url.PathEscape(s)` is `escape(s, encodePathSegment)` and
`URL.EscapedPath` escapes the path with mode `encodePath`. `shouldEscape`
leaves alphanumerics and the marks `- _ . ~` unescaped; among the RFC 3986
reserved bytes `$ & + , / : ; = ? @` mode `encodePath` escapes only `?`
while mode `encodePathSegment` escapes `/ ; , ?`; every other byte is
escaped as `%XX` with upper-case hex digits. -/

inductive EscapeMode where
  | path
  | pathSegment
deriving DecidableEq

/-- `shouldEscape(c, mode)` from `net/url`, restricted to the two path modes. -/
def shouldEscape (mode : EscapeMode) (c : Nat) : Bool :=
  if (97 ≤ c && c ≤ 122) || (65 ≤ c && c ≤ 90) || (48 ≤ c && c ≤ 57) then
    false
  else if c = 45 || c = 95 || c = 46 || c = 126 then
    false
  else if c = 36 || c = 38 || c = 43 || c = 44 || c = 47 || c = 58 || c = 59 ||
          c = 61 || c = 63 || c = 64 then
    match mode with
    | .path => c = 63
    | .pathSegment => c = 47 || c = 59 || c = 44 || c = 63
  else
    true

/-- Upper-case hex digit byte, as Go's `upperhex` table. -/
def hexDigitUpper (n : Nat) : Nat := if n < 10 then 48 + n else 55 + n

/-- `escape(s, mode)` from `net/url`: each byte that `shouldEscape` selects is
replaced by `%XX`. -/
def escapeBytes (mode : EscapeMode) : List Nat → List Nat
  | [] => []
  | c :: rest =>
      (if shouldEscape mode c then
        [37, hexDigitUpper (c / 16), hexDigitUpper (c % 16)]
      else [c]) ++ escapeBytes mode rest

/-- Go `strings.ReplaceAll(s, old, new)` for a single-byte `old` pattern. -/
def replaceAllByte (b : Nat) (rep : List Nat) : List Nat → List Nat
  | [] => []
  | c :: rest => (if c = b then rep else [c]) ++ replaceAllByte b rep rest

/-- Go `strings.Join(elems, sep)`. -/
def joinBytes (sep : List Nat) : List (List Nat) → List Nat
  | [] => []
  | [p] => p
  | p :: q :: ps => p ++ sep ++ joinBytes sep (q :: ps)

/-- Splitting a byte string on a separator byte, as Go `strings.Split` with a
one-byte separator (splitting the empty string yields one empty piece). -/
def splitOnByte (sep : Nat) : List Nat → List (List Nat)
  | [] => [[]]
  | c :: rest =>
      if c = sep then [] :: splitOnByte sep rest
      else
        match splitOnByte sep rest with
        | [] => [[c]]
        | p :: ps => (c :: p) :: ps

/-! ### The http client (`src/internal/api/http_client.go`) -/

/-- The fields of `httpClient` that its methods read.  `baseUrl` is the parse
of `"https://api.asgardeo.io/"`, of which `URI` uses only the scheme and the
host, so those two are stored directly. -/
structure Client where
  scheme : List Nat
  host : List Nat
  basepath : List Nat
  token : List Nat
deriving DecidableEq

/-- A tenant record as returned by `cfg.GetTenant`: its `Name` and the result
of `GetAccessToken()`. -/
structure Tenant where
  name : List Nat
  accessToken : List Nat
deriving DecidableEq

/-- `NewHTTPClientAPI`: resolving the tenant may fail (modelled by the
`Option Tenant` argument, `none` = `cfg.GetTenant` returned an error); on
success the client is built with basepath `"t/" + tenant.Name +
"/api/server/v1"`, base URL `https://api.asgardeo.io/` and the tenant's
access token. -/
def NewHTTPClientAPI (getTenant : Option Tenant) : Option Client :=
  match getTenant with
  | none => none
  | some tenant =>
      some { scheme := strBytes "https"
             host := strBytes "api.asgardeo.io"
             basepath := strBytes "t/" ++ tenant.name ++ strBytes "/api/server/v1"
             token := tenant.accessToken }

/-- `url.URL.String()` for a URL with nonempty scheme and host, a path, and no
user/query/fragment parts: `scheme ++ "://" ++ host ++ p` where `p` is the
path escaped with mode `encodePath`, preceded by `/` when it does not already
start with one. -/
def urlString (scheme host path : List Nat) : List Nat :=
  let p := escapeBytes .path path
  scheme ++ strBytes "://" ++ host ++
    (if p ≠ [] ∧ p.head? ≠ some 47 then 47 :: p else p)

/-- `httpClient.URI`: rebuilds a base URL from the client's scheme, host and
`basepath ++ "/"`, percent-escapes every segment with `url.PathEscape`,
replaces each remaining `/` by `"%2F"`, and appends the segments joined
by `/`. -/
def URI (c : Client) (path : List (List Nat)) : List Nat :=
  let base := urlString c.scheme c.host (c.basepath ++ [47])
  let escapedPath := path.map
    (fun unescapedPath =>
      replaceAllByte 47 (strBytes "%2F") (escapeBytes .pathSegment unescapedPath))
  base ++ joinBytes [47] escapedPath

/-- The simpler URI builder the refinement claim C10 compares against (written
from the spec reading, not from the source): identical to `URI` except that
the explicit slash-replacement step after `url.PathEscape` is omitted. -/
def URInoSlashReplace (c : Client) (path : List (List Nat)) : List Nat :=
  urlString c.scheme c.host (c.basepath ++ [47]) ++
    joinBytes [47] (path.map (fun p => escapeBytes .pathSegment p))

/-! ### Requests, transport and the response resolver -/

/-- The cancellation cause a Go context reports through `ctx.Err()` once its
Done channel has fired. -/
inductive CtxErr where
  | canceled
  | deadlineExceeded
deriving DecidableEq

/-- An outbound request: method, target URI, body bytes and headers (an
ordered key/value list; `Header.Get` returns the first value of a key,
`Header.Set` replaces all values of a key, `Header.Add` appends one). -/
structure HttpRequest where
  method : List Nat
  uri : List Nat
  body : List Nat
  headers : List (List Nat × List Nat)
deriving DecidableEq

/-- `Header.Get`: first value recorded under the key. -/
def headerGet (k : List Nat) (hs : List (List Nat × List Nat)) : Option (List Nat) :=
  match hs.find? (fun kv => kv.1 = k) with
  | some kv => some kv.2
  | none => none

/-- `Header.Set`: drop every value of the key and record the new one. -/
def headerSet (k v : List Nat) (hs : List (List Nat × List Nat)) :
    List (List Nat × List Nat) :=
  (k, v) :: hs.filter (fun kv => kv.1 ≠ k)

/-- `Header.Add`: append a value for the key. -/
def headerAdd (k v : List Nat) (hs : List (List Nat × List Nat)) :
    List (List Nat × List Nat) :=
  hs ++ [(k, v)]

/-- A received response: status code and fully read body bytes. -/
structure HttpResponse where
  status : Nat
  body : List Nat
deriving DecidableEq

/-- The error of `httpClient.NewRequest`: the JSON encoder rejected the
payload. -/
inductive CreateError where
  | encodingFailed
deriving DecidableEq

/-- `httpClient.NewRequest`: a non-nil payload (`some p`) is serialized with
`json.NewEncoder(&body).Encode(payload)`, which appends a newline after the
JSON value and may fail (`encode p = none`); a body equal to `"null\n"` is
then reset to empty; the request always gets a `Content-Type:
application/json` header (via `Header.Add` on empty headers). -/
def NewRequest {P : Type} (encode : P → Option (List Nat)) (method uri : List Nat)
    (payload : Option P) : Except CreateError HttpRequest :=
  let encoded : Except CreateError (List Nat) :=
    match payload with
    | none => Except.ok []
    | some p =>
        match encode p with
        | none => Except.error CreateError.encodingFailed
        | some bs => Except.ok (bs ++ strBytes "\n")
  match encoded with
  | Except.error e => Except.error e
  | Except.ok body0 =>
      let body := if body0 = strBytes "null\n" then [] else body0
      Except.ok { method := method, uri := uri, body := body
                  headers := headerAdd (strBytes "Content-Type")
                    (strBytes "application/json") [] }

/-- The error of `httpClient.Do`: either the context's own error (the
`ctx.Done()` branch of the `select`) or the transport's error unchanged. -/
inductive DoError (ε : Type) where
  | cancellation (ce : CtxErr)
  | transport (e : ε)
deriving DecidableEq

/-- The header injection `Do` performs before sending:
`req.Header.Set("Authorization", "Bearer "+c.token)`. -/
def authorize (c : Client) (req : HttpRequest) : HttpRequest :=
  { req with
    headers := headerSet (strBytes "Authorization")
      (strBytes "Bearer " ++ c.token) req.headers }

/-- `httpClient.Do`: injects the bearer token, sends via the underlying
transport (`transport`, a parameter standing for `c.client.Do`), and on a
transport error consults the request's context: `ctx` is the context's
cancellation state when the transport returns (`some ce` iff `ctx.Done()`
has fired, in which case `ctx.Err() = ce` is returned instead of the
transport error). -/
def Do {ε : Type} (c : Client) (ctx : Option CtxErr)
    (transport : HttpRequest → Except ε HttpResponse) (req : HttpRequest) :
    Except (DoError ε) HttpResponse :=
  match transport (authorize c req) with
  | Except.ok response => Except.ok response
  | Except.error e =>
      match ctx with
      | some ce => Except.error (DoError.cancellation ce)
      | none => Except.error (DoError.transport e)

/-- The error returned by `httpClient.Request` (each constructor is one of
its `return` branches; the `fmt.Errorf` wrapping texts are elided). -/
inductive RequestError (ε : Type) where
  | createFailed (e : CreateError)
  | sendFailed (e : DoError ε)
  | upstream (status : Nat) (message : List Nat)
  | decodeFailed
deriving DecidableEq

/-- Modelled from the spec: `newError` (defined in a source file of this
repository that is not under `src/`, only called from `http_client.go`)
builds the structured error for a status ≥ 400 response, "carrying at
minimum the status code and message", where the message is "extracted from
the body" when the body parses as the upstream error shape and otherwise
falls back "to a generic message built from the status code alone".
`extract` and `genericMsg` stand for those two unspecified formats. -/
def newError {ε : Type} (extract : List Nat → Option (List Nat))
    (genericMsg : Nat → List Nat) (response : HttpResponse) : RequestError ε :=
  RequestError.upstream response.status
    ((extract response.body).getD (genericMsg response.status))

/-- The tail of `httpClient.Request` from the status check on (the response
resolver): status ≥ 400 yields `newError response`; otherwise when the body
is nonempty and not `"{}"` it is unmarshalled into the payload slot
(`decode` = `json.Unmarshal` for the payload type, `none` = shape mismatch),
and otherwise the payload slot is returned untouched. -/
def resolve {P ε : Type} (decode : List Nat → Option P)
    (extract : List Nat → Option (List Nat)) (genericMsg : Nat → List Nat)
    (response : HttpResponse) (payload : Option P) :
    Except (RequestError ε) (Option P) :=
  if 400 ≤ response.status then
    Except.error (newError extract genericMsg response)
  else if 0 < response.body.length ∧ response.body ≠ strBytes "{}" then
    match decode response.body with
    | some v => Except.ok (some v)
    | none => Except.error RequestError.decodeFailed
  else
    Except.ok payload

/-- `httpClient.Request`: build the request, send it through `Do`, and
resolve the response.  The returned value is the payload slot after the
call (the Go code unmarshals into the same `payload` argument it
serialized). -/
def Request {P ε : Type} (c : Client) (ctx : Option CtxErr)
    (transport : HttpRequest → Except ε HttpResponse)
    (encode : P → Option (List Nat)) (decode : List Nat → Option P)
    (extract : List Nat → Option (List Nat)) (genericMsg : Nat → List Nat)
    (method uri : List Nat) (payload : Option P) :
    Except (RequestError ε) (Option P) :=
  match NewRequest encode method uri payload with
  | Except.error e => Except.error (RequestError.createFailed e)
  | Except.ok req =>
      match Do c ctx transport req with
      | Except.error e => Except.error (RequestError.sendFailed e)
      | Except.ok response => resolve decode extract genericMsg response payload

/-! ### The payload slot as a Go interface value (for claim C9)

`Request` takes `payload interface{}` and executes
`json.Unmarshal(responseBody, &payload)`.  A Go interface value is nil,
holds a pointer, or holds a non-pointer value; unmarshalling into a
pointer-to-interface descends through a pointer held by the interface and
writes the decoded value at its target, while for a nil interface or one
holding a non-pointer value it replaces the interface's contents with the
freshly decoded value — the caller's own copy of the interface argument is
unaffected in that case, because the argument was passed by value. -/

/-- A Go `interface{}` value over payload values `V`: nil, a pointer into the
heap, or an immediate value. -/
inductive GoValue (V : Type) where
  | null
  | ptr (addr : Nat)
  | val (v : V)
deriving DecidableEq

/-- `json.Unmarshal(data, &payload)` semantics for `payload interface{}`,
given the already decoded value: through a pointer the heap cell is updated
and the interface keeps pointing at it; otherwise the interface is replaced
by the decoded value and the heap is untouched. -/
def unmarshalIntoInterface {V : Type} (decoded : V) (slot : GoValue V)
    (heap : Nat → Option V) : GoValue V × (Nat → Option V) :=
  match slot with
  | GoValue.ptr a => (GoValue.ptr a, fun x => if x = a then some decoded else heap x)
  | GoValue.null => (GoValue.val decoded, heap)
  | GoValue.val _ => (GoValue.val decoded, heap)

/-- What an interface value denotes to whoever holds it, reading pointers
through the heap. -/
def observe {V : Type} (g : GoValue V) (heap : Nat → Option V) : Option V :=
  match g with
  | GoValue.null => none
  | GoValue.ptr a => heap a
  | GoValue.val v => some v

/-- The success tail of `httpClient.Request` with the payload slot as an
interface value and an explicit heap: identical branching to `resolve`, but
the unmarshal step is `unmarshalIntoInterface` acting on `Request`'s local
copy of the caller's argument. -/
def resolveMem {V : Type} (decode : List Nat → Option V)
    (extract : List Nat → Option (List Nat)) (genericMsg : Nat → List Nat)
    (response : HttpResponse) (payload : GoValue V) (heap : Nat → Option V) :
    Except (RequestError Unit) (GoValue V × (Nat → Option V)) :=
  if 400 ≤ response.status then
    Except.error (newError extract genericMsg response)
  else if 0 < response.body.length ∧ response.body ≠ strBytes "{}" then
    match decode response.body with
    | some v => Except.ok (unmarshalIntoInterface v payload heap)
    | none => Except.error RequestError.decodeFailed
  else
    Except.ok (payload, heap)

/-! ### The command dispatcher gate (`src/internal/cmd/root.go`) -/

/-- `commandRequiresAuthentication`: a fixed map from command path to "no
auth required", defaulting to `false` on a missing key, negated. -/
def commandRequiresAuthentication (invokedCommandName : String) : Bool :=
  let commandsWithNoAuthRequired : List (String × Bool) :=
    [("asgardeo login", true), ("asgardeo logout", true)]
  !((commandsWithNoAuthRequired.lookup invokedCommandName).getD false)

/-- The `PersistentPreRunE` closure installed by `buildRootCmd`: exempt
command paths return nil immediately; otherwise `cli.SetupWithAuthentication`
runs (`setupErr` is its result, `none` = nil error) and a failure is wrapped
as `fmt.Errorf("authentication failed: %w", err)`, modelled on error
messages. -/
def persistentPreRunE (setupErr : Option String) (commandPath : String) :
    Option String :=
  if !(commandRequiresAuthentication commandPath) then none
  else
    match setupErr with
    | some e => some ("authentication failed: " ++ e)
    | none => none

/-- Outcome of dispatching one command invocation. -/
structure DispatchResult where
  setupInvoked : Bool
  bodyRan : Bool
  err : Option String
deriving DecidableEq

/-- One command invocation as the command framework executes it: the pre-run
gate runs first; the session-setup collaborator is invoked exactly when the
command path requires authentication; a non-nil gate error is surfaced and
the command body never runs. -/
def dispatch (setupErr : Option String) (commandPath : String) : DispatchResult :=
  if commandRequiresAuthentication commandPath then
    match setupErr with
    | some e =>
        { setupInvoked := true, bodyRan := false
          err := some ("authentication failed: " ++ e) }
    | none => { setupInvoked := true, bodyRan := true, err := none }
  else
    { setupInvoked := false, bodyRan := true, err := none }

/-! ## Helper lemmas -/

theorem hexDigitUpper_ne_slash (n : Nat) : hexDigitUpper n ≠ 47 := by
  unfold hexDigitUpper
  split <;> omega

theorem escapeBytes_pathSegment_ne_slash {b : Nat} {l : List Nat}
    (hb : b ∈ escapeBytes EscapeMode.pathSegment l) : b ≠ 47 := by
  induction l with
  | nil => simp [escapeBytes] at hb
  | cons c rest ih =>
      rw [escapeBytes] at hb
      rcases List.mem_append.mp hb with h | h
      · by_cases hesc : shouldEscape EscapeMode.pathSegment c = true
        · rw [if_pos hesc] at h
          simp only [List.mem_cons, List.not_mem_nil, or_false] at h
          rcases h with rfl | rfl | rfl
          · omega
          · exact hexDigitUpper_ne_slash _
          · exact hexDigitUpper_ne_slash _
        · rw [if_neg hesc] at h
          simp only [List.mem_singleton] at h
          subst h
          intro h47
          rw [h47] at hesc
          exact hesc (by decide)
      · exact ih h

theorem replaceAllByte_eq_self {b : Nat} {rep l : List Nat}
    (h : ∀ c ∈ l, c ≠ b) : replaceAllByte b rep l = l := by
  induction l with
  | nil => rfl
  | cons c rest ih =>
      rw [replaceAllByte, if_neg (h c (List.mem_cons_self c rest)),
        ih (fun x hx => h x (List.mem_cons_of_mem c hx))]
      rfl

theorem replaceAll_escape_pathSegment (s : List Nat) :
    replaceAllByte 47 (strBytes "%2F") (escapeBytes EscapeMode.pathSegment s)
      = escapeBytes EscapeMode.pathSegment s :=
  replaceAllByte_eq_self (fun _ hc => escapeBytes_pathSegment_ne_slash hc)

theorem splitOnByte_no_sep {sep : Nat} {p : List Nat}
    (h : ∀ c ∈ p, c ≠ sep) : splitOnByte sep p = [p] := by
  induction p with
  | nil => rfl
  | cons c rest ih =>
      rw [splitOnByte, if_neg (h c (List.mem_cons_self c rest)),
        ih (fun x hx => h x (List.mem_cons_of_mem c hx))]

theorem splitOnByte_append_sep {sep : Nat} {p t : List Nat}
    (h : ∀ c ∈ p, c ≠ sep) :
    splitOnByte sep (p ++ sep :: t) = p :: splitOnByte sep t := by
  induction p with
  | nil =>
      simp only [List.nil_append]
      rw [splitOnByte, if_pos rfl]
  | cons c rest ih =>
      rw [List.cons_append, splitOnByte, if_neg (h c (List.mem_cons_self c rest)),
        ih (fun x hx => h x (List.mem_cons_of_mem c hx))]

theorem splitOnByte_joinBytes {sep : Nat} :
    ∀ pieces : List (List Nat), pieces ≠ [] →
      (∀ p ∈ pieces, ∀ c ∈ p, c ≠ sep) →
      splitOnByte sep (joinBytes [sep] pieces) = pieces
  | [], hne, _ => absurd rfl hne
  | [p], _, h => by
      rw [joinBytes]
      exact splitOnByte_no_sep (h p (List.mem_cons_self p []))
  | p :: q :: rest, _, h => by
      rw [joinBytes]
      have hjoin : p ++ [sep] ++ joinBytes [sep] (q :: rest)
          = p ++ sep :: joinBytes [sep] (q :: rest) := by simp
      rw [hjoin, splitOnByte_append_sep (h p (List.mem_cons_self p (q :: rest))),
        splitOnByte_joinBytes (q :: rest) (by simp)
          (fun r hr => h r (List.mem_cons_of_mem p hr))]

/-! ## Claims -/

/-- C10: in the output of `url.PathEscape` every `/` of the input has already
been replaced by `%2F` (mode `encodePathSegment` escapes the slash), so the
explicit `strings.ReplaceAll(.., "/", "%2F")` step in `URI` is a no-op and
`URI` is extensionally equal to the simpler builder that just joins the
`PathEscape`d segments. -/
theorem c10_slash_replace_noop (c : Client) (path : List (List Nat)) :
    URI c path = URInoSlashReplace c path := by
  unfold URI URInoSlashReplace
  have hmap : path.map
      (fun unescapedPath =>
        replaceAllByte 47 (strBytes "%2F")
          (escapeBytes EscapeMode.pathSegment unescapedPath))
      = path.map (fun p => escapeBytes EscapeMode.pathSegment p) :=
    List.map_congr_left (fun s _ => replaceAll_escape_pathSegment s)
  rw [hmap]

/-- C1 (amended to nonempty segment lists): for a client built by
`NewHTTPClientAPI`, `URI` returns the base URL
`https://api.asgardeo.io/t/<tenant>/api/server/v1/` followed by the
segments joined by `/`, each percent-escaped for path use with every `/`
inside a segment encoded as `%2F`; no escaped segment contains a literal
slash byte, so splitting the portion after the base path on `/` yields
exactly as many pieces as there were segments — provided at least one
segment was given (for the empty segment list splitting the empty suffix
yields one empty piece, see the counterexample). -/
theorem c1_uri_segments (t : Tenant) (c : Client)
    (hc : NewHTTPClientAPI (some t) = some c)
    (segs : List (List Nat)) (hne : segs ≠ []) :
    URI c segs =
      urlString (strBytes "https") (strBytes "api.asgardeo.io")
        (strBytes "t/" ++ t.name ++ strBytes "/api/server/v1" ++ [47]) ++
      joinBytes [47] (segs.map (fun s =>
        replaceAllByte 47 (strBytes "%2F") (escapeBytes EscapeMode.pathSegment s)))
    ∧ (∀ s ∈ segs, ∀ b ∈ replaceAllByte 47 (strBytes "%2F")
          (escapeBytes EscapeMode.pathSegment s), b ≠ 47)
    ∧ (splitOnByte 47 (joinBytes [47] (segs.map (fun s =>
          replaceAllByte 47 (strBytes "%2F")
            (escapeBytes EscapeMode.pathSegment s))))).length = segs.length := by
  have hslashfree : ∀ s ∈ segs, ∀ b ∈ replaceAllByte 47 (strBytes "%2F")
      (escapeBytes EscapeMode.pathSegment s), b ≠ 47 := by
    intro s _ b hb
    rw [replaceAll_escape_pathSegment] at hb
    exact escapeBytes_pathSegment_ne_slash hb
  refine ⟨?_, hslashfree, ?_⟩
  · have hc' : c =
        { scheme := strBytes "https", host := strBytes "api.asgardeo.io",
          basepath := strBytes "t/" ++ t.name ++ strBytes "/api/server/v1",
          token := t.accessToken } := by
      unfold NewHTTPClientAPI at hc
      exact (Option.some.injEq _ _ ▸ hc).symm
    subst hc'
    unfold URI
    simp only [List.append_assoc]
  · have hpieces : ∀ p ∈ segs.map (fun s =>
        replaceAllByte 47 (strBytes "%2F") (escapeBytes EscapeMode.pathSegment s)),
        ∀ b ∈ p, b ≠ 47 := by
      intro p hp b hb
      rcases List.mem_map.mp hp with ⟨s, hs, rfl⟩
      exact hslashfree s hs b hb
    rw [splitOnByte_joinBytes _ (by simpa using hne) hpieces, List.length_map]

/-- C1 counterexample: with no segments at all, `URI` appends the empty join
to the base URL, and splitting that empty suffix on `/` yields one (empty)
piece, not zero pieces. -/
theorem c1_counterexample :
    URI { scheme := strBytes "https", host := strBytes "api.asgardeo.io",
          basepath := strBytes "t/" ++ strBytes "acme" ++ strBytes "/api/server/v1",
          token := strBytes "tok" } [] =
      urlString (strBytes "https") (strBytes "api.asgardeo.io")
        (strBytes "t/" ++ strBytes "acme" ++ strBytes "/api/server/v1" ++ [47]) ++
      joinBytes [47] []
    ∧ (splitOnByte 47 (joinBytes [47] ([] : List (List Nat)))).length
        ≠ ([] : List (List Nat)).length := by
  constructor
  · unfold URI
    simp only [List.map_nil, List.append_assoc]
  · decide

/-- C1 witness: concrete evaluation for tenant `acme` and the two segments
`"ap/p"` and `"b"`: the suffix splits into exactly two pieces. -/
theorem c1_uri_segments_witness :
    (splitOnByte 47 (joinBytes [47] ([strBytes "ap/p", strBytes "b"].map (fun s =>
        replaceAllByte 47 (strBytes "%2F")
          (escapeBytes EscapeMode.pathSegment s))))).length = 2 :=
  (c1_uri_segments { name := strBytes "acme", accessToken := strBytes "tok" }
    { scheme := strBytes "https", host := strBytes "api.asgardeo.io",
      basepath := strBytes "t/" ++ strBytes "acme" ++ strBytes "/api/server/v1",
      token := strBytes "tok" } rfl
    [strBytes "ap/p", strBytes "b"] (by decide)).2.2

/-- C2: on the success path of `Request` (transport returned a response with
status below 400), an empty body or the exact two bytes `"{}"` skips decoding
and returns the caller's payload slot unmodified; any other body is decoded
into the slot, with a decode error when the body does not match the expected
shape. -/
theorem c2_empty_body_skips_decode {P ε : Type} (c : Client) (ctx : Option CtxErr)
    (transport : HttpRequest → Except ε HttpResponse)
    (encode : P → Option (List Nat)) (decode : List Nat → Option P)
    (extract : List Nat → Option (List Nat)) (genericMsg : Nat → List Nat)
    (method uri : List Nat) (payload : Option P)
    (req : HttpRequest) (response : HttpResponse)
    (hreq : NewRequest encode method uri payload = Except.ok req)
    (htr : transport (authorize c req) = Except.ok response)
    (hst : response.status < 400) :
    ((response.body = [] ∨ response.body = strBytes "{}") →
      Request c ctx transport encode decode extract genericMsg method uri payload
        = Except.ok payload)
    ∧ (response.body ≠ [] → response.body ≠ strBytes "{}" →
        decode response.body = none →
        Request c ctx transport encode decode extract genericMsg method uri payload
          = Except.error RequestError.decodeFailed)
    ∧ (∀ v, response.body ≠ [] → response.body ≠ strBytes "{}" →
        decode response.body = some v →
        Request c ctx transport encode decode extract genericMsg method uri payload
          = Except.ok (some v)) := by
  have hR : Request c ctx transport encode decode extract genericMsg method uri payload
      = resolve decode extract genericMsg response payload := by
    simp only [Request, Do, hreq, htr]
  refine ⟨?_, ?_, ?_⟩
  · intro hb
    rw [hR]
    unfold resolve
    rw [if_neg (by omega)]
    have hcond : ¬ (0 < response.body.length ∧ response.body ≠ strBytes "{}") := by
      rcases hb with hb | hb <;> rw [hb] <;> simp
    rw [if_neg hcond]
  · intro h1 h2 h3
    rw [hR]
    unfold resolve
    rw [if_neg (by omega), if_pos ⟨List.length_pos.mpr h1, h2⟩, h3]
  · intro v h1 h2 h3
    rw [hR]
    unfold resolve
    rw [if_neg (by omega), if_pos ⟨List.length_pos.mpr h1, h2⟩, h3]

/-- C2 witness: a status 200 response with body `{}` resolves to the caller's
untouched slot (`some 5`). -/
theorem c2_empty_body_skips_decode_witness :
    Request
      { scheme := strBytes "https", host := strBytes "api.asgardeo.io",
        basepath := strBytes "t/acme/api/server/v1", token := strBytes "tok" }
      none
      (fun _ => (Except.ok { status := 200, body := strBytes "{}" } :
        Except Unit HttpResponse))
      (fun _ : Nat => some (strBytes "5")) (fun _ => none) (fun _ => none)
      (fun _ => strBytes "error") (strBytes "GET") (strBytes "uri") (some 5)
      = Except.ok (some 5) := by
  exact (c2_empty_body_skips_decode
    { scheme := strBytes "https", host := strBytes "api.asgardeo.io",
      basepath := strBytes "t/acme/api/server/v1", token := strBytes "tok" }
    none
    (fun _ => (Except.ok { status := 200, body := strBytes "{}" } :
      Except Unit HttpResponse))
    (fun _ : Nat => some (strBytes "5")) (fun _ => none) (fun _ => none)
    (fun _ => strBytes "error") (strBytes "GET") (strBytes "uri") (some 5)
    { method := strBytes "GET", uri := strBytes "uri",
      body := strBytes "5" ++ strBytes "\n",
      headers := headerAdd (strBytes "Content-Type") (strBytes "application/json") [] }
    { status := 200, body := strBytes "{}" }
    rfl rfl (by decide)).1 (Or.inr rfl)

/-- C3: when the transport send fails, `Do` returns the context's own
cancellation error if the request's context was already cancelled or past
its deadline, and otherwise returns the transport error unchanged; it never
returns the raw transport error for a cancelled context. -/
theorem c3_cancellation_over_transport {ε : Type} (c : Client)
    (ctx : Option CtxErr) (transport : HttpRequest → Except ε HttpResponse)
    (req : HttpRequest) (e : ε)
    (htr : transport (authorize c req) = Except.error e) :
    (∀ ce, ctx = some ce →
        Do c ctx transport req = Except.error (DoError.cancellation ce))
    ∧ (ctx = none → Do c ctx transport req = Except.error (DoError.transport e))
    ∧ (ctx ≠ none → ∀ e2, Do c ctx transport req ≠ Except.error (DoError.transport e2)) := by
  refine ⟨?_, ?_, ?_⟩
  · intro ce hctx
    unfold Do
    rw [htr, hctx]
  · intro hctx
    unfold Do
    rw [htr, hctx]
  · intro hctx e2
    rcases Option.ne_none_iff_exists.mp hctx with ⟨ce, hce⟩
    unfold Do
    rw [htr, ← hce]
    simp

/-- C3 witness: a transport failure under an already-cancelled context yields
the cancellation error, not the transport error. -/
theorem c3_cancellation_over_transport_witness :
    Do { scheme := strBytes "https", host := strBytes "api.asgardeo.io",
         basepath := strBytes "t/acme/api/server/v1", token := strBytes "tok" }
      (some CtxErr.canceled) (fun _ => Except.error 7)
      { method := strBytes "GET", uri := strBytes "uri", body := [], headers := [] }
      = Except.error (DoError.cancellation CtxErr.canceled) :=
  (c3_cancellation_over_transport _ _ _ _ 7 rfl).1 CtxErr.canceled rfl

/-- C4: `Request` classifies a response as an error outcome exactly when its
status is ≥ 400, returning the structured upstream error carrying the status
code and the extracted message; every status below 400 proceeds to body
decoding (the outcome is a success value or a decode error, never an
upstream error). -/
theorem c4_status_classification {P ε : Type} (c : Client) (ctx : Option CtxErr)
    (transport : HttpRequest → Except ε HttpResponse)
    (encode : P → Option (List Nat)) (decode : List Nat → Option P)
    (extract : List Nat → Option (List Nat)) (genericMsg : Nat → List Nat)
    (method uri : List Nat) (payload : Option P)
    (req : HttpRequest) (response : HttpResponse)
    (hreq : NewRequest encode method uri payload = Except.ok req)
    (htr : transport (authorize c req) = Except.ok response) :
    (400 ≤ response.status →
      Request c ctx transport encode decode extract genericMsg method uri payload
        = Except.error (RequestError.upstream response.status
            ((extract response.body).getD (genericMsg response.status))))
    ∧ (response.status < 400 →
      (∃ v, Request c ctx transport encode decode extract genericMsg method uri payload
          = Except.ok v)
      ∨ Request c ctx transport encode decode extract genericMsg method uri payload
          = Except.error RequestError.decodeFailed) := by
  have hR : Request c ctx transport encode decode extract genericMsg method uri payload
      = resolve decode extract genericMsg response payload := by
    simp only [Request, Do, hreq, htr]
  constructor
  · intro hst
    rw [hR]
    unfold resolve newError
    rw [if_pos hst]
  · intro hst
    rw [hR]
    unfold resolve
    rw [if_neg (by omega)]
    by_cases hb : 0 < response.body.length ∧ response.body ≠ strBytes "{}"
    · rw [if_pos hb]
      cases hdec : decode response.body with
      | none => exact Or.inr rfl
      | some v => exact Or.inl ⟨some v, rfl⟩
    · rw [if_neg hb]
      exact Or.inl ⟨payload, rfl⟩

/-- C4 witness: a 404 response yields the structured upstream error carrying
status 404 and the extracted message. -/
theorem c4_status_classification_witness :
    Request
      { scheme := strBytes "https", host := strBytes "api.asgardeo.io",
        basepath := strBytes "t/acme/api/server/v1", token := strBytes "tok" }
      none
      (fun _ => (Except.ok { status := 404, body := strBytes "nope" } :
        Except Unit HttpResponse))
      (fun _ : Nat => some (strBytes "5")) (fun _ => none)
      (fun b => some b) (fun _ => strBytes "error")
      (strBytes "GET") (strBytes "uri") (some 5)
      = Except.error (RequestError.upstream 404 (strBytes "nope")) := by
  exact (c4_status_classification
    { scheme := strBytes "https", host := strBytes "api.asgardeo.io",
      basepath := strBytes "t/acme/api/server/v1", token := strBytes "tok" }
    none
    (fun _ => (Except.ok { status := 404, body := strBytes "nope" } :
      Except Unit HttpResponse))
    (fun _ : Nat => some (strBytes "5")) (fun _ => none)
    (fun b => some b) (fun _ => strBytes "error")
    (strBytes "GET") (strBytes "uri") (some 5)
    { method := strBytes "GET", uri := strBytes "uri",
      body := strBytes "5" ++ strBytes "\n",
      headers := headerAdd (strBytes "Content-Type") (strBytes "application/json") [] }
    { status := 404, body := strBytes "nope" }
    rfl rfl).1 (by decide)

/-- C5: a payload whose JSON serialization is the `null` token yields a
request with an empty body, and every request `NewRequest` constructs
carries the `Content-Type: application/json` header. -/
theorem c5_null_payload_empty_body {P : Type} (encode : P → Option (List Nat))
    (method uri : List Nat) (payload : Option P) (req : HttpRequest)
    (hok : NewRequest encode method uri payload = Except.ok req) :
    headerGet (strBytes "Content-Type") req.headers
      = some (strBytes "application/json")
    ∧ (∀ p, payload = some p → encode p = some (strBytes "null") →
        req.body = []) := by
  cases payload with
  | none =>
      unfold NewRequest at hok
      simp only [Except.ok.injEq] at hok
      subst hok
      refine ⟨rfl, ?_⟩
      intro p hp
      exact absurd hp (by simp)
  | some p =>
      cases henc : encode p with
      | none =>
          simp only [NewRequest, henc] at hok
          exact absurd hok (by simp)
      | some bs =>
          simp only [NewRequest, henc] at hok
          simp only [Except.ok.injEq] at hok
          subst hok
          refine ⟨rfl, ?_⟩
          intro p' hp' hnull
          have hpp : p = p' := Option.some.inj hp'
          subst hpp
          rw [henc] at hnull
          have hbs : bs = strBytes "null" := Option.some.inj hnull
          subst hbs
          show (if strBytes "null" ++ strBytes "\n" = strBytes "null\n" then ([] : List Nat)
              else strBytes "null" ++ strBytes "\n") = []
          decide

/-- C5 witness: a payload encoding to `null` yields an empty body and the
JSON content-type header. -/
theorem c5_null_payload_empty_body_witness :
    headerGet (strBytes "Content-Type")
      (headerAdd (strBytes "Content-Type") (strBytes "application/json") [])
      = some (strBytes "application/json") :=
  (c5_null_payload_empty_body (fun _ : Nat => some (strBytes "null"))
    (strBytes "POST") (strBytes "uri") (some 3)
    { method := strBytes "POST", uri := strBytes "uri", body := []
      headers := headerAdd (strBytes "Content-Type") (strBytes "application/json") [] }
    rfl).1

/-- C6: `commandRequiresAuthentication` returns `false` for exactly the
command paths `"asgardeo login"` and `"asgardeo logout"`, and `true` for
every other command path. -/
theorem c6_requires_auth :
    commandRequiresAuthentication "asgardeo login" = false
    ∧ commandRequiresAuthentication "asgardeo logout" = false
    ∧ ∀ s : String, s ≠ "asgardeo login" → s ≠ "asgardeo logout" →
        commandRequiresAuthentication s = true := by
  refine ⟨by decide, by decide, ?_⟩
  intro s h1 h2
  unfold commandRequiresAuthentication
  have e1 : (s == ("asgardeo login" : String)) = false :=
    beq_eq_false_iff_ne.mpr h1
  have e2 : (s == ("asgardeo logout" : String)) = false :=
    beq_eq_false_iff_ne.mpr h2
  simp [List.lookup, e1, e2]

/-- C6 witness: `"asgardeo applications list"` requires authentication. -/
theorem c6_requires_auth_witness :
    commandRequiresAuthentication "asgardeo applications list" = true :=
  c6_requires_auth.2.2 "asgardeo applications list" (by decide) (by decide)

/-- C7: for a command path that requires authentication, the pre-run gate
invokes the session-setup collaborator, and a setup failure surfaces as an
error whose message starts with the fixed `"authentication failed"` text
while the command body never runs; for an exempt path the gate succeeds without
invoking session setup and the body runs. -/
theorem c7_gate_wraps_auth_failure (setupErr : Option String) (p : String) :
    (commandRequiresAuthentication p = true →
      (dispatch setupErr p).setupInvoked = true
      ∧ (∀ e, setupErr = some e →
          (dispatch setupErr p).err = some ("authentication failed: " ++ e)
          ∧ (dispatch setupErr p).bodyRan = false)
      ∧ (setupErr = none → (dispatch setupErr p).bodyRan = true
          ∧ (dispatch setupErr p).err = none))
    ∧ (commandRequiresAuthentication p = false →
      (dispatch setupErr p).setupInvoked = false
      ∧ (dispatch setupErr p).bodyRan = true
      ∧ (dispatch setupErr p).err = none) := by
  constructor
  · intro h
    unfold dispatch
    rw [if_pos h]
    cases setupErr with
    | none =>
        refine ⟨rfl, ?_, ?_⟩
        · intro e he
          exact absurd he (by simp)
        · intro _
          exact ⟨rfl, rfl⟩
    | some e' =>
        refine ⟨rfl, ?_, ?_⟩
        · intro e he
          have : e' = e := Option.some.inj he
          subst this
          exact ⟨rfl, rfl⟩
        · intro he
          exact absurd he (by simp)
  · intro h
    unfold dispatch
    rw [if_neg (by rw [h]; exact Bool.false_ne_true)]
    exact ⟨rfl, rfl, rfl⟩

/-- C7 witness: dispatching `"asgardeo applications list"` with a failing
session setup aborts with the wrapped error and the body never runs. -/
theorem c7_gate_wraps_auth_failure_witness :
    (dispatch (some "boom") "asgardeo applications list").err
        = some ("authentication failed: " ++ "boom")
    ∧ (dispatch (some "boom") "asgardeo applications list").bodyRan = false :=
  ((c7_gate_wraps_auth_failure (some "boom") "asgardeo applications list").1
    (by decide)).2.1 "boom" rfl

/-- C8: `Do` sets the `Authorization` header of the outgoing request to
`"Bearer "` followed by the client's token, overwriting any previously
present value (the request is arbitrary, so in particular one that already
carried an `Authorization` header), and the transport only ever sees the
authorized request. -/
theorem c8_bearer_token_injected (c : Client) (req : HttpRequest) :
    headerGet (strBytes "Authorization") (authorize c req).headers
      = some (strBytes "Bearer " ++ c.token)
    ∧ ∀ (ε : Type) (ctx : Option CtxErr)
        (t1 t2 : HttpRequest → Except ε HttpResponse),
        t1 (authorize c req) = t2 (authorize c req) →
        Do c ctx t1 req = Do c ctx t2 req := by
  constructor
  · unfold authorize headerSet headerGet
    simp [List.find?]
  · intro ε ctx t1 t2 h
    unfold Do
    rw [h]

/-- C8 witness: on a request already carrying an `Authorization` header the
injected bearer value wins. -/
theorem c8_bearer_token_injected_witness :
    headerGet (strBytes "Authorization")
      (authorize
        { scheme := strBytes "https", host := strBytes "api.asgardeo.io",
          basepath := strBytes "t/acme/api/server/v1", token := strBytes "tok" }
        { method := strBytes "GET", uri := strBytes "uri", body := [],
          headers := [(strBytes "Authorization", strBytes "old")] }).headers
      = some (strBytes "Bearer " ++ strBytes "tok")
    ∧ @Do Unit
        { scheme := strBytes "https", host := strBytes "api.asgardeo.io",
          basepath := strBytes "t/acme/api/server/v1", token := strBytes "tok" }
        none (fun _ => Except.error ())
        { method := strBytes "GET", uri := strBytes "uri", body := [],
          headers := [(strBytes "Authorization", strBytes "old")] }
      = @Do Unit
        { scheme := strBytes "https", host := strBytes "api.asgardeo.io",
          basepath := strBytes "t/acme/api/server/v1", token := strBytes "tok" }
        none (fun _ => Except.error ())
        { method := strBytes "GET", uri := strBytes "uri", body := [],
          headers := [(strBytes "Authorization", strBytes "old")] } :=
  ⟨(c8_bearer_token_injected
      { scheme := strBytes "https", host := strBytes "api.asgardeo.io",
        basepath := strBytes "t/acme/api/server/v1", token := strBytes "tok" }
      { method := strBytes "GET", uri := strBytes "uri", body := [],
        headers := [(strBytes "Authorization", strBytes "old")] }).1,
   (c8_bearer_token_injected
      { scheme := strBytes "https", host := strBytes "api.asgardeo.io",
        basepath := strBytes "t/acme/api/server/v1", token := strBytes "tok" }
      { method := strBytes "GET", uri := strBytes "uri", body := [],
        headers := [(strBytes "Authorization", strBytes "old")] }).2
     Unit none (fun _ => Except.error ()) (fun _ => Except.error ()) rfl⟩

/-- C9: on the success-decode path the response JSON is unmarshalled into the
same payload slot that was passed in; the decoded value reaches the caller
exactly when the slot holds a pointer — through a pointer the heap cell the
caller shares is updated, while a non-pointer slot only replaces `Request`'s
local copy and the caller's own binding and heap are unchanged. -/
theorem c9_payload_slot_aliasing {V : Type} (decode : List Nat → Option V)
    (extract : List Nat → Option (List Nat)) (genericMsg : Nat → List Nat)
    (response : HttpResponse) (payload : GoValue V) (heap : Nat → Option V)
    (v : V) (hst : response.status < 400) (hb1 : response.body ≠ [])
    (hb2 : response.body ≠ strBytes "{}")
    (hdec : decode response.body = some v) :
    (∀ a, payload = GoValue.ptr a →
        resolveMem decode extract genericMsg response payload heap
          = Except.ok (payload, fun x => if x = a then some v else heap x)
        ∧ observe payload (fun x => if x = a then some v else heap x) = some v)
    ∧ (∀ w, payload = GoValue.val w →
        resolveMem decode extract genericMsg response payload heap
          = Except.ok (GoValue.val v, heap)
        ∧ observe payload heap = some w) := by
  have hres : resolveMem decode extract genericMsg response payload heap
      = Except.ok (unmarshalIntoInterface v payload heap) := by
    unfold resolveMem
    rw [if_neg (by omega), if_pos ⟨List.length_pos.mpr hb1, hb2⟩, hdec]
  constructor
  · intro a hp
    subst hp
    refine ⟨?_, ?_⟩
    · rw [hres]
      rfl
    · unfold observe
      simp
  · intro w hp
    subst hp
    exact ⟨hres, rfl⟩

/-- C9 witness: with the slot holding a pointer to cell 0 the decoded value 7
lands in the caller-visible heap cell; the concrete response has status 200
and body `"x"`. -/
theorem c9_payload_slot_aliasing_witness :
    resolveMem (fun _ => some (7 : Nat)) (fun _ => none) (fun _ => [])
      { status := 200, body := strBytes "x" } (GoValue.ptr 0) (fun _ => none)
      = Except.ok (GoValue.ptr 0,
          fun x => if x = 0 then some 7 else (fun _ => (none : Option Nat)) x)
    ∧ observe (GoValue.ptr 0)
        (fun x => if x = 0 then some 7 else (fun _ => (none : Option Nat)) x)
      = some 7 :=
  (c9_payload_slot_aliasing (fun _ => some (7 : Nat)) (fun _ => none)
    (fun _ => []) { status := 200, body := strBytes "x" } (GoValue.ptr 0)
    (fun _ => none) 7 (by decide) (by decide) (by decide) rfl).1 0 rfl

end Asgardeo
